import Mathlib

/-!
Verification of the tibia-boss-api extraction/enrichment pipeline.

Shallow embedding of the Python sources:
  app/models/boss.py            (BossModel, field sanitizers, slug derivation)
  app/services/wikitext_parser.py (template discovery and field extraction)
  app/services/image_resolver.py  (batched image URL resolution)
  app/services/tibiawiki_client.py (content fetch argument contract)
  app/db/system_jobs.py           (distributed scraper lock)
  app/services/scraper_job.py     (orchestrator lock release guarantee)

Python strings are modelled over Lean `String`/`List Char`; the model covers
the ASCII fragment of Python's Unicode-aware `str.lower`, `\w`, `\s` and
`\d` classes, which is the fragment all claims exercise.  Machine integers
are `Int`/`Nat` (Python ints are unbounded, so no wrap-around modelling is
needed).  Fallible code returns `Except`/`Option`; network calls are
represented by explicit outcome oracles passed as arguments.
-/

/-- Python whitespace characters recognised by `str.strip()` and the regex
class `\s` (ASCII fragment). -/
def pyWhitespace (c : Char) : Bool :=
  c == ' ' || c == '\t' || c == '\n' || c == '\r' || c == '\x0b' || c == '\x0c'

/-- `str.strip()` on a character list: drop whitespace from both ends. -/
def stripChars (l : List Char) : List Char :=
  ((l.dropWhile pyWhitespace).reverse.dropWhile pyWhitespace).reverse

/-- Python `str.strip()`. -/
def pyStrip (s : String) : String := String.mk (stripChars s.data)

/-- Python `str.lower()` on one character, ASCII fragment: code points
65-90 (`'A'`-`'Z'`) shift to 97-122, everything else is unchanged.
Python's `str.lower` additionally lowercases non-ASCII cased letters,
which this model leaves unchanged; the two coincide on ASCII strings, and
every theorem whose truth depends on per-character behaviour either
evaluates concrete ASCII inputs or carries an explicit ASCII
hypothesis. -/
def pyLowerChar (c : Char) : Char :=
  if 65 ≤ c.toNat ∧ c.toNat ≤ 90 then Char.ofNat (c.toNat + 32) else c

/-- Python `str.lower()` (ASCII fragment). -/
def pyLower (s : String) : String := String.mk (s.data.map pyLowerChar)

/-- The regex class `\d` (ASCII fragment). -/
def pyIsDigitChar (c : Char) : Bool := '0' ≤ c && c ≤ '9'

/-- Python `str.isdigit()` (ASCII fragment): nonempty and all digits. -/
def pyIsDigitStr (s : String) : Bool := !s.data.isEmpty && s.data.all pyIsDigitChar

/-- Skip past the first `')'`, returning the remainder, or `none` when the
list holds no `')'` (then the regex `\([^)]*\)` cannot match there). -/
def afterClose : List Char → Option (List Char)
  | [] => none
  | c :: rest => if c = ')' then some rest else afterClose rest

/-- `re.sub(r"\([^)]*\)", "", ·)` via a fuel-bounded scanner: an opening
parenthesis with a later `')'` is removed together with the enclosed text;
an unmatched `'('` is kept.  `fuel` at least the list length makes the
scan total. -/
def removeParensGo : Nat → List Char → List Char
  | 0, l => l
  | _ + 1, [] => []
  | fuel + 1, c :: rest =>
    if c = '(' then
      match afterClose rest with
      | some rest2 => removeParensGo fuel rest2
      | none => c :: removeParensGo fuel rest
    else c :: removeParensGo fuel rest

/-- `re.sub(r"\([^)]*\)", "", ·)` on a character list. -/
def removeParens (l : List Char) : List Char := removeParensGo l.length l

/-- `natOfDigits` parses a digit run as `int(...)` does. -/
def natOfDigits (l : List Char) : Nat :=
  l.foldl (fun n c => 10 * n + (c.toNat - 48)) 0

/-- Split a character list on every occurrence of `sep`, like Python
`str.split(sep)` (so `"a,,b"` gives three pieces and `""` gives one). -/
def splitOnChar (sep : Char) : List Char → List (List Char)
  | [] => [[]]
  | c :: rest =>
    match splitOnChar sep rest with
    | [] => [[c]]
    | h :: t => if c = sep then [] :: h :: t else (c :: h) :: t

/-- String wrapper around `splitOnChar`. -/
def splitOnCharS (sep : Char) (s : String) : List String :=
  (splitOnChar sep s.data).map String.mk

/-- Raw value reaching the numeric `mode="before"` validators of
`BossModel` (`sanitize_hp` and its delegates): Python `None`, `int`, or
`str`. -/
inductive HpRaw where
  | vnone : HpRaw
  | vint : Int → HpRaw
  | vstr : String → HpRaw
deriving DecidableEq

/-- Raw value reaching the list-valued `mode="before"` validators
(`sanitize_walks_through` and its delegates): Python `None`, `list`, or
`str`. -/
inductive ListRaw where
  | vnone : ListRaw
  | vlist : List String → ListRaw
  | vstr : String → ListRaw
deriving DecidableEq

/-- `BossModel.sanitize_hp` (app/models/boss.py, lines 54-91): strip, map
the unknown-value sentinels to `None`, strip parentheticals, drop commas
and spaces, then concatenate every digit run (`re.findall(r"\d+")` joined
by `"".join` keeps exactly the digit characters in order) and parse; a
string with no digits yields `None`.  The function is total: it never
raises on any input. -/
def sanitize_hp : HpRaw → Option Int
  | .vnone => none
  | .vint n => some n
  | .vstr s =>
    let s1 := pyStrip s
    if (["???", "variable", "unknown", "n/a", ""] : List String).contains (pyLower s1) then
      none
    else
      let s2 := pyStrip (String.mk (removeParens s1.data))
      let s3 := s2.data.filter (fun c => !(c == ',' || c == ' '))
      let ds := s3.filter pyIsDigitChar
      if ds.isEmpty then none else some (Int.ofNat (natOfDigits ds))

/-- `BossModel.sanitize_exp`: same logic as `sanitize_hp`. -/
def sanitize_exp (v : HpRaw) : Option Int := sanitize_hp v

/-- `BossModel.sanitize_speed`: same logic as `sanitize_hp`. -/
def sanitize_speed (v : HpRaw) : Option Int := sanitize_hp v

/-- `BossModel.sanitize_walks_through` (app/models/boss.py, lines 115-147):
a list is trimmed and empty-filtered; a string is stripped, the empty-list
sentinels map to `[]`, parentheticals are stripped, and the rest is split
on commas, trimmed, and empty-filtered. -/
def sanitize_walks_through : ListRaw → List String
  | .vnone => []
  | .vlist l => (l.map pyStrip).filter (fun x => x ≠ "")
  | .vstr s =>
    let s1 := pyStrip s
    if (["none", "n/a", "???", ""] : List String).contains (pyLower s1) then []
    else
      let s2 := pyStrip (String.mk (removeParens s1.data))
      ((splitOnCharS ',' s2).map pyStrip).filter (fun x => x ≠ "")

/-- `BossModel.sanitize_immunities`: same logic as `sanitize_walks_through`. -/
def sanitize_immunities (v : ListRaw) : List String := sanitize_walks_through v

/-- `BossModel.sanitize_weaknesses`: same logic as `sanitize_walks_through`. -/
def sanitize_weaknesses (v : ListRaw) : List String := sanitize_walks_through v

/-- `BossModel.sanitize_resistances` (the legacy textual list field):
same logic as `sanitize_walks_through`. -/
def sanitize_resistances_list (v : ListRaw) : List String := sanitize_walks_through v

/-- `BossModel.sanitize_list_fields` (abilities, sounds, loot): same logic
as `sanitize_walks_through`. -/
def sanitize_list_fields (v : ListRaw) : List String := sanitize_walks_through v

/-- The regex class `\w`, ASCII fragment: letters, digits, underscore.
Python's `re` is Unicode-aware, so the program's `\w` also matches
non-ASCII word characters (e.g. `中`, U+4E2D) that this predicate
rejects; the two coincide on ASCII strings, and the character-set theorem
built on this predicate is stated only for ASCII names
(`generate_slug_props`). -/
def pyIsWordChar (c : Char) : Bool := c.isAlphanum || c == '_'

/-- A character matched by the regex class `[-\s]`. -/
def dashSpace (c : Char) : Bool := c == '-' || pyWhitespace c

/-- Whether a list starts with a `[-\s]` character. -/
def headIsDashSpace : List Char → Bool
  | [] => false
  | c :: _ => dashSpace c

/-- `re.sub(r"[-\s]+", "-", ·)`: every maximal run of hyphens/whitespace
becomes a single hyphen (characters of a run other than the last are
skipped; the last emits `'-'`). -/
def subDashSpaceRuns : List Char → List Char
  | [] => []
  | c :: rest =>
    if dashSpace c then
      if headIsDashSpace rest then subDashSpaceRuns rest
      else '-' :: subDashSpaceRuns rest
    else c :: subDashSpaceRuns rest

/-- Python `str.strip("-")`: drop hyphens from both ends. -/
def stripDashChars (l : List Char) : List Char :=
  ((l.dropWhile (fun c => c == '-')).reverse.dropWhile (fun c => c == '-')).reverse

/-- `BossModel._generate_slug` (app/models/boss.py, lines 182-199):
lowercase, strip characters outside `[\w\s-]`, collapse hyphen/whitespace
runs to single hyphens, strip leading/trailing hyphens. -/
def generate_slug (name : String) : String :=
  let lowered := name.data.map pyLowerChar
  let kept := lowered.filter (fun c => pyIsWordChar c || pyWhitespace c || c == '-')
  let collapsed := subDashSpaceRuns kept
  String.mk (stripDashChars collapsed)

/-- `BossVisuals` (app/models/boss.py, lines 9-22). -/
structure BossVisuals where
  gif_url : Option String := none
  filename : Option String := none
deriving DecidableEq

/-- `BosstiaryStats` (app/models/boss.py, lines 25-29). -/
structure BosstiaryStats where
  class_name : Option String := none
  kills_required : Option Int := none
deriving DecidableEq

/-- `BossModel` (app/models/boss.py, lines 32-52).  `resistances` is the
percent mapping `dict[str, int]`, modelled as an association list. -/
structure BossModel where
  name : String
  slug : Option String := none
  hp : Option Int := none
  exp : Option Int := none
  speed : Option Int := none
  version : Option String := none
  location : Option String := none
  abilities : List String := []
  sounds : List String := []
  loot : List String := []
  walks_through : List String := []
  elemental_weaknesses : List String := []
  elemental_resistances : List String := []
  immunities : List String := []
  resistances : List (String × Int) := []
  bosstiary : Option BosstiaryStats := none
  visuals : Option BossVisuals := none
deriving DecidableEq

/-- `BossModel.get_slug` (app/models/boss.py, lines 171-180). -/
def get_slug (m : BossModel) : String :=
  match m.slug with
  | some s => if s ≠ "" then s else generate_slug m.name
  | none => generate_slug m.name

/-- The scraper lock document (app/db/system_jobs.py): `status`, `last_run`,
`locked_at`.  Timestamps are abstract `Nat` values supplied by callers in
place of `datetime.now(UTC)`. -/
structure LockDoc where
  status : String
  last_run : Option Nat
  locked_at : Option Nat
deriving DecidableEq

/-- The `system_jobs` collection restricted to the single
`_id = "scraper_lock"` document: `none` when the document does not exist. -/
abbrev LockState := Option LockDoc

/-- `SystemJobsRepository.ensure_scraper_lock_document` (lines 31-47):
an upsert whose `$setOnInsert` creates the document with status `idle`
when absent and changes nothing otherwise. -/
def ensure_scraper_lock_document : LockState → LockState
  | none => some { status := "idle", last_run := none, locked_at := none }
  | some d => some d

/-- `SystemJobsRepository.acquire_scraper_lock` (lines 49-69):
`find_one_and_update` filtered on `status = "idle"`; when the filter
matches, status becomes `running` and `locked_at` is stamped and the call
returns `true`; otherwise nothing matches and it returns `false`. -/
def acquire_scraper_lock (st : LockState) (now : Nat) : LockState × Bool :=
  match st with
  | some d =>
    if d.status = "idle" then
      (some { d with status := "running", locked_at := some now }, true)
    else (some d, false)
  | none => (none, false)

/-- `SystemJobsRepository.release_scraper_lock` (lines 71-91):
unconditionally sets status `idle`, stamps `last_run`, clears `locked_at`;
a missing document is only logged. -/
def release_scraper_lock (st : LockState) (now : Nat) : LockState :=
  match st with
  | some d => some { d with status := "idle", last_run := some now, locked_at := none }
  | none => none

/-- `run_scraper_job` (app/services/scraper_job.py, lines 28-143), with the
scraping pipeline of the guarded `try` block (listing, bounded-concurrency
fetch+extract, image resolution, persistence) abstracted into its outcome
`pipeline : Except String Unit`.  The source wraps that block in
`try ... except Exception ... finally release`, so both outcomes reach the
release and the function returns normally: the embedding is total (it
returns a plain `LockState`, not `Except`), and the two `pipeline` branches
both run `release_scraper_lock`, mirroring `except Exception`
(log-and-swallow) followed by `finally`. -/
def run_scraper_job (st : LockState) (t_acq t_rel : Nat)
    (pipeline : Except String Unit) : LockState :=
  let st1 := ensure_scraper_lock_document st
  match acquire_scraper_lock st1 t_acq with
  | (st2, false) => st2
  | (st2, true) =>
    match pipeline with
    | .ok _ => release_scraper_lock st2 t_rel
    | .error _ => release_scraper_lock st2 t_rel

/-- One entry of the content-fetch response's `pages` object
(app/services/tibiawiki_client.py, lines 180-210): its `title` field (if
any), whether the `missing` marker is present, and the
`slots.main` content of each revision (`None` when the `*` key is absent). -/
structure WPage where
  title : Option String
  missing : Bool
  revisions : List (Option String)
deriving DecidableEq

/-- Outcome of the single `_request_with_backoff` call made by
`get_boss_wikitext`: either an exception propagating out of the retry
wrapper, or a parsed JSON body whose `query.pages` object is an
association list from page key to page data. -/
inductive FetchOutcome where
  | exn : String → FetchOutcome
  | ok : List (String × WPage) → FetchOutcome
deriving DecidableEq

/-- Errors surfacing from `get_boss_wikitext`: the `ValueError` of the
argument contract, or a propagated HTTP/network error. -/
inductive FetchError where
  | invalidArgument : String → FetchError
  | httpError : String → FetchError
deriving DecidableEq

/-- Python truthiness of an optional int (`if not pageid`): `None` and `0`
are falsy. -/
def pyTruthyNat : Option Nat → Bool
  | none => false
  | some n => n != 0

/-- Python truthiness of an optional string (`if not title`): `None` and
`""` are falsy. -/
def pyTruthyStrOpt : Option String → Bool
  | none => false
  | some s => s != ""

/-- Generic association-list lookup, modelling Python `dict.get`. -/
def dlookup {β : Type} (d : List (String × β)) (k : String) : Option β :=
  (d.find? (fun p => p.1 == k)).map (fun p => p.2)

/-- `TibiaWikiClient.get_boss_wikitext` (lines 144-210): raises
`ValueError` when neither a (truthy) `pageid` nor a (truthy) `title` is
supplied; otherwise issues one request (outcome given by `outcome`),
selects the page by `pageid` key when `pageid` is truthy and by scanning
for a matching `title` otherwise, and returns `none` for a missing page
or an empty revision list, else the first revision's content. -/
def get_boss_wikitext (pageid : Option Nat) (title : Option String)
    (outcome : FetchOutcome) : Except FetchError (Option String) :=
  if !pyTruthyNat pageid && !pyTruthyStrOpt title then
    .error (.invalidArgument "Deve fornecer pageid ou title")
  else
    match outcome with
    | .exn e => .error (.httpError e)
    | .ok pages =>
      let page_data : Option WPage :=
        if pyTruthyNat pageid then
          match pageid with
          | some n => dlookup pages (toString n)
          | none => none
        else
          (pages.find? (fun kv => kv.2.title == title)).map (fun kv => kv.2)
      match page_data with
      | none => .ok none
      | some pd =>
        if pd.missing then .ok none
        else
          match pd.revisions.head? with
          | none => .ok none
          | some content => .ok content

/-- Whether a content-fetch result is the `ValueError` of the argument
contract. -/
def is_invalid_argument_error : Except FetchError (Option String) → Bool
  | .error (.invalidArgument _) => true
  | _ => false

/-- Match attempt of the regex `\[\[(?:[^|\]]*\|)?([^\]]+)\]\]` right after
an opening `[[`: with a pipe present the capture starts after the first
pipe, otherwise from the start; the capture is the maximal nonempty run of
non-`]` characters and must be followed by `]]`.  Returns the replacement
text and the remainder after the match. -/
def linkMatch (inner : List Char) : Option (List Char × List Char) :=
  let seg := inner.takeWhile (fun c => !(c == '|' || c == ']'))
  let restA := inner.drop seg.length
  let tryB : Option (List Char × List Char) :=
    let cap2 := inner.takeWhile (fun c => c ≠ ']')
    let restC := inner.drop cap2.length
    if cap2 ≠ [] then
      match restC with
      | ']' :: ']' :: after => some (cap2, after)
      | _ => none
    else none
  match restA with
  | '|' :: afterPipe =>
    let cap := afterPipe.takeWhile (fun c => c ≠ ']')
    let restB := afterPipe.drop cap.length
    if cap ≠ [] then
      match restB with
      | ']' :: ']' :: after => some (cap, after)
      | _ => tryB
    else tryB
  | _ => tryB

/-- `re.sub(r"\[\[(?:[^|\]]*\|)?([^\]]+)\]\]", r"\1", ·)`: left-to-right
scan replacing each wiki link by its display text. -/
def linkSubGo : Nat → List Char → List Char
  | 0, l => l
  | _ + 1, [] => []
  | fuel + 1, c :: rest =>
    if c = '[' then
      match rest with
      | '[' :: inner =>
        match linkMatch inner with
        | some (display, after) => display ++ linkSubGo fuel after
        | none => c :: linkSubGo fuel rest
      | _ => c :: linkSubGo fuel rest
    else c :: linkSubGo fuel rest

/-- Match attempt of the case-insensitive regex `<br\s*/?>` right after an
opening `<`; returns the remainder after the tag. -/
def brMatch : List Char → Option (List Char)
  | b :: r :: rest2 =>
    if (b == 'b' || b == 'B') && (r == 'r' || r == 'R') then
      match rest2.dropWhile pyWhitespace with
      | '/' :: '>' :: after => some after
      | '>' :: after => some after
      | _ => none
    else none
  | _ => none

/-- `re.sub(r"<br\s*/?>", ", ", ·, flags=IGNORECASE)`. -/
def brSubGo : Nat → List Char → List Char
  | 0, l => l
  | _ + 1, [] => []
  | fuel + 1, c :: rest =>
    if c = '<' then
      match brMatch rest with
      | some after => ',' :: ' ' :: brSubGo fuel after
      | none => c :: brSubGo fuel rest
    else c :: brSubGo fuel rest

/-- `re.sub(r"<[^>]+>", "", ·)`: remove remaining simple tags. -/
def tagSubGo : Nat → List Char → List Char
  | 0, l => l
  | _ + 1, [] => []
  | fuel + 1, c :: rest =>
    if c = '<' then
      let inner := rest.takeWhile (fun c2 => c2 ≠ '>')
      match rest.drop inner.length with
      | '>' :: after => if inner ≠ [] then tagSubGo fuel after else c :: tagSubGo fuel rest
      | _ => c :: tagSubGo fuel rest
    else c :: tagSubGo fuel rest

/-- `WikitextParser._clean_wiki_text` (app/services/wikitext_parser.py,
lines 113-132): `None` on falsy input, else strip `[[...]]` links, turn
`<br>` tags into comma separators, drop remaining tags, and trim. -/
def clean_wiki_text (text : String) : Option String :=
  if text = "" then none
  else
    let l1 := linkSubGo text.data.length text.data
    let l2 := brSubGo l1.length l1
    let l3 := tagSubGo l2.length l2
    some (pyStrip (String.mk l3))

/-- Python `str.replace(ab, "")` for a two-character pattern `ab`:
left-to-right removal of non-overlapping occurrences. -/
def removeDoubleGo (a b : Char) : Nat → List Char → List Char
  | 0, l => l
  | _ + 1, [] => []
  | fuel + 1, c :: rest =>
    if c = a then
      match rest with
      | d :: rest2 =>
        if d = b then removeDoubleGo a b fuel rest2 else c :: removeDoubleGo a b fuel rest
      | [] => [c]
    else c :: removeDoubleGo a b fuel rest

/-- Python `str.replace` of a two-character pattern by the empty string. -/
def removeDouble (a b : Char) (l : List Char) : List Char := removeDoubleGo a b l.length l

/-- The file-namespace prefixes stripped by the parser, in source order. -/
def imagePrefixes : List (List Char) :=
  ["File:".data, "Image:".data, ":File:".data, ":Image:".data]

/-- The prefix-stripping loop of `_normalize_image_filename`: for each
known prefix in order, when the current value starts with it, drop it and
strip. -/
def stripImagePrefixes (v : List Char) : List Char :=
  imagePrefixes.foldl
    (fun acc pre => if pre.isPrefixOf acc then stripChars (acc.drop pre.length) else acc) v

/-- `WikitextParser._normalize_image_filename` (lines 134-159): `None` on
falsy input, else strip, remove `[[` and `]]`, drop known file-namespace
prefixes, and truncate at the first `|`. -/
def normalize_image_filename (image_value : String) : Option String :=
  if image_value = "" then none
  else
    let v0 := stripChars image_value.data
    let v1 := removeDouble '[' '[' v0
    let v2 := removeDouble ']' ']' v1
    let v3 := stripImagePrefixes v2
    let v4 :=
      if v3.contains '|' then stripChars (v3.takeWhile (fun c => c ≠ '|'))
      else stripChars v3
    some (String.mk v4)

/-- A template parameter as seen through `str(param.name)` and
`str(param.value)` of mwparserfromhell: positional parameters carry the
numeric names `"1"`, `"2"`, ... -/
structure TParam where
  name : String
  value : String
deriving DecidableEq

/-- A wiki template: name plus parameter list, in document order. -/
structure Template where
  name : String
  params : List TParam
deriving DecidableEq

/-- `isboss = yes` detection inside `_find_infobox_boss` (lines 89-95):
some parameter named `isboss` (stripped, lowercased) whose stripped,
lowercased value is `yes`. -/
def has_isboss_yes (t : Template) : Bool :=
  t.params.any (fun p =>
    pyLower (pyStrip p.name) == "isboss" && pyLower (pyStrip p.value) == "yes")

/-- hp/exp-like field detection inside `_find_infobox_boss` (lines 96-105). -/
def has_hp_or_exp (t : Template) : Bool :=
  t.params.any (fun p =>
    (["hp", "exp", "hitpoints", "experience", "xp"] : List String).contains
      (pyLower (pyStrip p.name)))

/-- Substring containment, modelling Python `needle in hay` on strings. -/
def containsSub (needle : List Char) : List Char → Bool
  | [] => needle.isEmpty
  | c :: rest => needle.isPrefixOf (c :: rest) || containsSub needle rest

/-- Python `needle in hay` for strings. -/
def strContains (hay needle : String) : Bool := containsSub needle.data hay.data

/-- The per-template test of `_find_infobox_boss` (lines 79-109): exact
`Infobox Boss` name; or `Infobox Creature` with an affirmative boss flag
or an hp/exp-like field; or any name loosely containing both `infobox`
and `boss`. -/
def is_infobox_boss_template (t : Template) : Bool :=
  let template_name := pyLower (pyStrip t.name)
  template_name == "infobox boss" ||
  (template_name == "infobox creature" && (has_isboss_yes t || has_hp_or_exp t)) ||
  (strContains template_name "infobox" && strContains template_name "boss")

/-- `WikitextParser._find_infobox_boss` (lines 66-111): first template in
document order passing the test. -/
def find_infobox_boss (templates : List Template) : Option Template :=
  templates.find? is_infobox_boss_template

/-- The mutable `data` dictionary assembled by `_extract_template_data`
(lines 173-184) before `BossModel` construction.  The list-typed entries
start as the empty Python list and may be replaced by strings as template
parameters are folded in, hence `ListRaw`; hp/exp start as `None` and may
become strings, hence `HpRaw`. -/
structure ExtractData where
  name : String
  hp : HpRaw
  exp : HpRaw
  location : Option String
  walks_through : ListRaw
  elemental_weaknesses : ListRaw
  elemental_resistances : ListRaw
  immunities : ListRaw
  bosstiary_class : Option String
  image_filename : Option String
deriving DecidableEq

/-- The `field_mapping` synonym table (lines 187-215). -/
def field_mapping : List (String × String) :=
  [("name", "name"),
   ("hp", "hp"), ("hitpoints", "hp"), ("health", "hp"),
   ("exp", "exp"), ("experience", "exp"), ("xp", "exp"),
   ("location", "location"), ("loc", "location"),
   ("walks through", "walks_through"), ("walksthrough", "walks_through"),
   ("walks_through", "walks_through"),
   ("weak to", "elemental_weaknesses"), ("weakness", "elemental_weaknesses"),
   ("weak", "elemental_weaknesses"),
   ("strong to", "elemental_resistances"), ("resistance", "elemental_resistances"),
   ("resistant", "elemental_resistances"),
   ("immunities", "immunities"), ("immunity", "immunities"),
   ("immune", "immunities"), ("immune to", "immunities"),
   ("bosstiaryclass", "bosstiary_class"),
   ("image", "image"), ("imag", "image"), ("img", "image"), ("picture", "image")]

/-- Python truthiness of a `ListRaw` value. -/
def listRawTruthy : ListRaw → Bool
  | .vnone => false
  | .vlist l => !l.isEmpty
  | .vstr s => s != ""

/-- String rendering of a `ListRaw` value for the f-string concatenation;
whenever the source reaches it the value is a (truthy) string. -/
def listRawAsStr : ListRaw → String
  | .vstr s => s
  | .vlist _ => ""
  | .vnone => ""

/-- The list-field accumulation of lines 259-266: first value replaces the
(falsy) initial empty list, later values are comma-joined. -/
def concatListField (old : ListRaw) (clean_val : String) : ListRaw :=
  if listRawTruthy old then .vstr (listRawAsStr old ++ ", " ++ clean_val)
  else .vstr clean_val

/-- One iteration of the parameter loop of `_extract_template_data`
(lines 228-266): map the stripped lowercased parameter name through
`field_mapping`, skip empty values, and assign/accumulate by field kind. -/
def apply_template_param (d : ExtractData) (p : TParam) : ExtractData :=
  let param_name := pyLower (pyStrip p.name)
  match dlookup field_mapping param_name with
  | none => d
  | some field_name =>
    let param_value := pyStrip p.value
    if param_value = "" then d
    else if field_name = "name" then { d with name := param_value }
    else if field_name = "image" then
      { d with image_filename := normalize_image_filename param_value }
    else if field_name = "hp" then { d with hp := .vstr param_value }
    else if field_name = "exp" then { d with exp := .vstr param_value }
    else if field_name = "location" then { d with location := clean_wiki_text param_value }
    else if field_name = "bosstiary_class" then { d with bosstiary_class := some param_value }
    else
      match clean_wiki_text param_value with
      | none => d
      | some clean_val =>
        if clean_val = "" then d
        else if field_name = "walks_through" then
          { d with walks_through := concatListField d.walks_through clean_val }
        else if field_name = "elemental_weaknesses" then
          { d with elemental_weaknesses := concatListField d.elemental_weaknesses clean_val }
        else if field_name = "elemental_resistances" then
          { d with elemental_resistances := concatListField d.elemental_resistances clean_val }
        else if field_name = "immunities" then
          { d with immunities := concatListField d.immunities clean_val }
        else d

/-- The initial `data` dictionary (lines 173-184): `boss_name or ""` for
the name, `None` for hp/exp/location/bosstiary class/image, empty lists
for the four list fields. -/
def initialExtractData (boss_name : Option String) : ExtractData :=
  { name := match boss_name with | some s => s | none => ""
    hp := .vnone
    exp := .vnone
    location := none
    walks_through := .vlist []
    elemental_weaknesses := .vlist []
    elemental_resistances := .vlist []
    immunities := .vlist []
    bosstiary_class := none
    image_filename := none }

/-- The positional-name scan of lines 218-226: the first parameter whose
stripped name is empty or the digit string `"1"` supplies its stripped
value (the outer digit test subsumed by the inner one is kept verbatim). -/
def positional_name (t : Template) : String :=
  match t.params.find? (fun p =>
      let pn := pyStrip p.name
      (pn == "" || pyIsDigitStr pn) && (pn == "1" || pn == "")) with
  | some p => pyStrip p.value
  | none => ""

/-- The bosstiary lookup of lines 276-283: fixed substring rules on the
lowercased class name. -/
def bosstiary_kills (boss_class : String) : Option Int :=
  let bc_lower := pyLower boss_class
  if strContains bc_lower "nemesis" then some 5
  else if strContains bc_lower "archfoe" then some 60
  else if strContains bc_lower "bane" then some 2500
  else none

/-- `BossModel(**data, bosstiary=bosstiary_data)` (line 293): the pydantic
construction with its `mode="before"` validators applied to the provided
fields.  The fields never present in `data` — slug, speed, version,
abilities, sounds, loot, resistances, visuals — keep their model
defaults. -/
def mkBossModel (d : ExtractData) (bosstiary_data : Option BosstiaryStats) : BossModel :=
  { name := d.name
    hp := sanitize_hp d.hp
    exp := sanitize_exp d.exp
    location := d.location
    walks_through := sanitize_walks_through d.walks_through
    elemental_weaknesses := sanitize_weaknesses d.elemental_weaknesses
    elemental_resistances := sanitize_resistances_list d.elemental_resistances
    immunities := sanitize_immunities d.immunities
    bosstiary := bosstiary_data }

/-- `WikitextParser._extract_template_data` (lines 162-304). -/
def extract_template_data (t : Template) (boss_name : Option String) : BossModel :=
  let d0 := initialExtractData boss_name
  let d1 := if d0.name = "" then { d0 with name := positional_name t } else d0
  let d2 := t.params.foldl apply_template_param d1
  let d3 :=
    if d2.name = "" then
      match boss_name with
      | some bn => if bn ≠ "" then { d2 with name := bn } else d2
      | none => d2
    else d2
  let bosstiary_data : Option BosstiaryStats :=
    match d3.bosstiary_class with
    | some bc =>
      if bc ≠ "" then some { class_name := some bc, kills_required := bosstiary_kills bc }
      else none
    | none => none
  let boss_model := mkBossModel d3 bosstiary_data
  let image_filename :=
    if !pyTruthyStrOpt d3.image_filename && d3.name ≠ "" then some (d3.name ++ ".gif")
    else d3.image_filename
  if pyTruthyStrOpt image_filename then
    { boss_model with visuals := some { gif_url := none, filename := image_filename } }
  else boss_model

/-- Find the first occurrence of the two-character marker `ab`, returning
the text before it and the remainder after it. -/
def findMarker2 (a b : Char) : List Char → Option (List Char × List Char)
  | [] => none
  | [_] => none
  | c :: d :: rest =>
    if c = a ∧ d = b then some ([], rest)
    else
      match findMarker2 a b (d :: rest) with
      | some (pre, post) => some (c :: pre, post)
      | none => none

/-- Split at the first `'='`, when present. -/
def splitFirstEq : List Char → Option (List Char × List Char)
  | [] => none
  | c :: rest =>
    if c = '=' then some ([], rest)
    else
      match splitFirstEq rest with
      | some (a, b) => some (c :: a, b)
      | none => none

/-- Number a template's pipe-separated parts: a part with an `'='` is a
named parameter split at the first `'='`; a part without one is positional
and receives the next numeric name `"1"`, `"2"`, ... as mwparserfromhell
does. -/
def mkParamsGo (counter : Nat) : List (List Char) → List TParam
  | [] => []
  | part :: rest =>
    match splitFirstEq part with
    | some (n, v) => { name := String.mk n, value := String.mk v } :: mkParamsGo counter rest
    | none =>
      { name := toString (counter + 1), value := String.mk part } :: mkParamsGo (counter + 1) rest

/-- Build a `Template` from the text between `{{` and `}}`. -/
def mkTemplate (body : List Char) : Template :=
  match splitOnChar '|' body with
  | [] => { name := "", params := [] }
  | nm :: parts => { name := String.mk nm, params := mkParamsGo 0 parts }

/-- Model of the external `mwparserfromhell.parse(...).filter_templates()`
call restricted to flat, non-nested templates: each `{{ ... }}` span (no
template, link or tag nesting inside) becomes one `Template` in document
order.  This is the only behaviour of the third-party parser the verified
inputs exercise. -/
def parse_flat_templates_go : Nat → List Char → List Template
  | 0, _ => []
  | fuel + 1, l =>
    match findMarker2 '\x7b' '\x7b' l with
    | none => []
    | some (_, afterOpen) =>
      match findMarker2 '\x7d' '\x7d' afterOpen with
      | none => []
      | some (body, rest) => mkTemplate body :: parse_flat_templates_go fuel rest

/-- Model of `mwparserfromhell` template listing for flat templates. -/
def parse_flat_templates (s : String) : List Template :=
  parse_flat_templates_go s.data.length s.data

/-- `WikitextParser.parse` (lines 26-64): reject falsy wikitext, locate the
infobox template, extract.  The defensive `except` blocks re-raising
library errors as `ParserError` have no counterpart in the pure model,
whose template scan and extraction are total. -/
def WikitextParser.parse (wikitext : String) (boss_name : Option String) :
    Except String BossModel :=
  if wikitext = "" then .error "Wikitext vazio fornecido"
  else
    match find_infobox_boss (parse_flat_templates wikitext) with
    | none => .error "Template Infobox Boss ou Infobox Creature nao encontrado no wikitext"
    | some infobox => .ok (extract_template_data infobox boss_name)

/-- `BATCH_SIZE` (app/services/image_resolver.py, line 11). -/
def BATCH_SIZE : Nat := 50

/-- `PLACEHOLDER_URL` (line 12). -/
def PLACEHOLDER_URL : String := "static/placeholder_boss.png"

/-- One entry of an image-info response's `pages` object: its `title`
(defaulting to `""` via `page_data.get("title", "")`) and, for every
`imageinfo` array element, its optional `url` value. -/
structure PageData where
  title : String
  imageinfo : List (Option String)
deriving DecidableEq

/-- Parsed JSON body of one image-info batch request: the `query.pages`
entries in iteration order and the `query.redirects` list of
from/to pairs. -/
structure BatchResponse where
  pages : List PageData
  redirects : List (String × String)
deriving DecidableEq

/-- Outcome of one `_resolve_batch` POST: an exception (HTTP error, network
error or malformed response, all caught by the same handlers) or a parsed
response. -/
inductive BatchOutcome where
  | exn : BatchOutcome
  | ok : BatchResponse → BatchOutcome

/-- Python `dict` insertion: replacing an existing key in place, appending
a new key. -/
def dictInsert : List (String × String) → String → String → List (String × String)
  | [], k, v => [(k, v)]
  | (k1, v1) :: rest, k, v =>
    if k1 = k then (k, v) :: rest else (k1, v1) :: dictInsert rest k v

/-- Python `dict.update`. -/
def dictUpdate (d e : List (String × String)) : List (String × String) :=
  e.foldl (fun acc p => dictInsert acc p.1 p.2) d

/-- The url extraction of lines 117-124: `imageinfo[0].get("url")` when
`imageinfo` is nonempty, kept only when truthy. -/
def page_url (p : PageData) : Option String :=
  match p.imageinfo.head? with
  | some (some u) => if u = "" then none else some u
  | _ => none

/-- The `url_map` built on lines 116-124: resolved page title to URL. -/
def url_map (r : BatchResponse) : List (String × String) :=
  r.pages.foldl
    (fun acc p =>
      match page_url p with
      | some u => dictInsert acc p.title u
      | none => acc) []

/-- The `redirect_map` dict comprehension of line 113. -/
def redirect_map (r : BatchResponse) : List (String × String) :=
  r.redirects.foldl (fun acc pr => dictInsert acc pr.1 pr.2) []

/-- The per-filename resolution of lines 126-138: follow a redirect when
present, look the target up in `url_map`, else the placeholder. -/
def batch_value (r : BatchResponse) (f : String) : String :=
  let target := (dlookup (redirect_map r) f).getD f
  match dlookup (url_map r) target with
  | some u => u
  | none => PLACEHOLDER_URL

/-- `ImageResolverService._resolve_batch` (lines 69-151): on a successful
response every filename of the batch maps to its resolved URL or the
placeholder; on an exception the `except` handlers map every filename of
the batch to the placeholder.  Either way the function returns normally. -/
def resolve_batch (o : BatchOutcome) (filenames : List String) : List (String × String) :=
  match o with
  | .exn => filenames.map (fun f => (f, PLACEHOLDER_URL))
  | .ok r => filenames.map (fun f => (f, batch_value r f))

/-- `ImageResolverService._chunk_list` (lines 56-67), with
`range(0, len(items), chunk_size)` written as the scaled
`List.range` below. -/
def chunk_list (items : List String) (chunk_size : Nat) : List (List String) :=
  (List.range ((items.length + chunk_size - 1) / chunk_size)).map
    (fun i => (items.drop (i * chunk_size)).take chunk_size)

/-- `list(dict.fromkeys(filenames))` (line 177): deduplicate preserving
first-occurrence order. -/
def dedupFirstGo (seen : List String) : List String → List String
  | [] => []
  | x :: rest =>
    if x ∈ seen then dedupFirstGo seen rest
    else x :: dedupFirstGo (x :: seen) rest

/-- Deduplication preserving first-occurrence order. -/
def dedupFirst (l : List String) : List String := dedupFirstGo [] l

/-- The defensive final pass of lines 201-206: any requested filename
still missing from the results receives the placeholder. -/
def fillMissing (d : List (String × String)) (unique : List String) :
    List (String × String) :=
  unique.foldl
    (fun acc f => if (dlookup acc f).isSome then acc else dictInsert acc f PLACEHOLDER_URL) d

/-- `ImageResolverService.resolve_images` (lines 153-209): deduplicate,
chunk into batches of `BATCH_SIZE`, resolve each batch (the `i`-th POST's
outcome given by `oracle i`; the outer per-chunk `except` duplicates the
catch-all inside `_resolve_batch` and assigns the same placeholders, so a
single exception outcome covers both), accumulate with `dict.update`, then
fill any missing filename with the placeholder.  Total: the embedding
returns a mapping for every input, never an error. -/
def resolve_images (oracle : Nat → BatchOutcome) (filenames : List String) :
    List (String × String) :=
  if filenames.isEmpty then []
  else
    let unique := dedupFirst filenames
    let chunks := chunk_list unique BATCH_SIZE
    let all_results :=
      chunks.enum.foldl
        (fun acc ic => dictUpdate acc (resolve_batch (oracle ic.1) ic.2)) []
    fillMissing all_results unique

/-- URLs carried by a batch outcome: the candidate values of `url_map`. -/
def outcomeUrls : BatchOutcome → List String
  | .exn => []
  | .ok r => r.pages.filterMap page_url

/-- The end-to-end scenario markup of the spec (braces written as their
escaped code points). -/
def abyssadorMarkup : String :=
  "\x7b\x7bInfobox Boss|name=Abyssador|hp=340,000|exp=400,000|speed=230|earth=0|fire=85|walks_through=Fire, Energy\x7d\x7d"

/-- 55 distinct filenames, a concrete instance for the batch-boundary
scenario. -/
def batch55 : List String := (List.range 55).map (fun i => "f" ++ toString i)

/-- A concrete outcome oracle whose first batch call raises and whose
later calls return a response resolving `f54`. -/
def oracleFirstFails : Nat → BatchOutcome := fun i =>
  if i = 0 then .exn
  else .ok { pages := [{ title := "f54", imageinfo := [some "URL54"] }], redirects := [] }

/-- C1 (counterexample): on the end-to-end scenario markup the extracted
record's speed is absent — not 230 — and its percent-resistances mapping
is empty — it does not send `earth` to 0 and `fire` to 85 — because
`field_mapping` carries no entry for `speed`, `earth` or `fire`; so the
claim as stated is false at this input. -/
theorem abyssador_speed_resistances_counterexample :
    (WikitextParser.parse abyssadorMarkup none).map (fun m => m.speed) = Except.ok none ∧
    (WikitextParser.parse abyssadorMarkup none).map (fun m => m.resistances) = Except.ok [] ∧
    Except.ok (none : Option Int) ≠
      (Except.ok (some 230) : Except String (Option Int)) := by
  refine ⟨rfl, rfl, fun h => ?_⟩
  injection h with h2
  exact Option.noConfusion h2

/-- C1 (amended): for the markup
`{{Infobox Boss|name=Abyssador|hp=340,000|exp=400,000|speed=230|earth=0|fire=85|walks_through=Fire, Energy}}`,
extraction succeeds and returns a record with name `Abyssador`, hp 340000,
exp 400000 and walks_through `["Fire", "Energy"]`, while speed is absent
and the resistances mapping is empty (the `speed`, `earth` and `fire`
template parameters are not mapped by the extractor); the synthesized
visuals carry the fallback filename `Abyssador.gif`. -/
theorem abyssador_extraction :
    WikitextParser.parse abyssadorMarkup none =
      Except.ok
        { name := "Abyssador", hp := some 340000, exp := some 400000,
          speed := none, resistances := [],
          walks_through := ["Fire", "Energy"],
          visuals := some { gif_url := none, filename := some "Abyssador.gif" } } := by
  rfl

/-- C2: starting from no lock document, `ensure` creates the idle
document; the first `acquire` returns `true`, moving status from `idle`
to `running` and stamping `locked_at` (the update conditioned on the
current status being `idle`); a second `acquire` without an intervening
release returns `false` and leaves the document unchanged; `release`
returns the status to `idle`, clears `locked_at` and stamps `last_run`;
a third `acquire` then returns `true` again. -/
theorem scraper_lock_mutual_exclusion (t1 t2 t3 : Nat) :
    ensure_scraper_lock_document none =
      some { status := "idle", last_run := none, locked_at := none } ∧
    acquire_scraper_lock (ensure_scraper_lock_document none) t1 =
      (some { status := "running", last_run := none, locked_at := some t1 }, true) ∧
    acquire_scraper_lock (some { status := "running", last_run := none, locked_at := some t1 }) t2 =
      (some { status := "running", last_run := none, locked_at := some t1 }, false) ∧
    release_scraper_lock
        (some { status := "running", last_run := none, locked_at := some t1 }) t2 =
      some { status := "idle", last_run := some t2, locked_at := none } ∧
    acquire_scraper_lock (some { status := "idle", last_run := some t2, locked_at := none }) t3 =
      (some { status := "running", last_run := some t2, locked_at := some t3 }, true) := by
  exact ⟨rfl, rfl, rfl, rfl, rfl⟩

/-- C2 (witness): the lock sequence at the concrete timestamps 1, 2, 3. -/
theorem scraper_lock_mutual_exclusion_witness :
    acquire_scraper_lock (ensure_scraper_lock_document none) 1 =
      (some { status := "running", last_run := none, locked_at := some 1 }, true) :=
  (scraper_lock_mutual_exclusion 1 2 3).2.1

/-- C6: the shared numeric sanitizer maps `"50,000 (estimated)"` to 50000;
maps each sentinel (`"???"`, `"Variable"`, `"unknown"`, `"n/a"`, empty),
case-insensitively, to absent — never to zero; and maps an already-numeric
integer input to itself.  The sanitizer is a total function on every
string input (it never raises): its string branch always returns an
`Option Int`. -/
theorem sanitize_hp_examples :
    sanitize_hp (.vstr "50,000 (estimated)") = some 50000 ∧
    sanitize_hp (.vstr "???") = none ∧
    sanitize_hp (.vstr "Variable") = none ∧
    sanitize_hp (.vstr "variable") = none ∧
    sanitize_hp (.vstr "VARIABLE") = none ∧
    sanitize_hp (.vstr "unknown") = none ∧
    sanitize_hp (.vstr "Unknown") = none ∧
    sanitize_hp (.vstr "n/a") = none ∧
    sanitize_hp (.vstr "N/A") = none ∧
    sanitize_hp (.vstr "") = none ∧
    sanitize_hp (.vint 100000) = some 100000 := by
  exact ⟨rfl, rfl, rfl, rfl, rfl, rfl, rfl, rfl, rfl, rfl, rfl⟩

/-- C8 (counterexample): supplying both identifiers does not raise the
argument error — `pageid` simply takes priority — so the claim that the
call fails when both are given is false at this input. -/
theorem get_boss_wikitext_both_supplied_no_error :
    is_invalid_argument_error
        (get_boss_wikitext (some 5) (some "Morgaroth") (.ok [])) = false ∧
    get_boss_wikitext (some 5) (some "Morgaroth") (.ok []) = Except.ok none := by
  exact ⟨rfl, rfl⟩

/-- C8 (amended): `get_boss_wikitext` fails with the argument
`ValueError` exactly when neither identifier is (truthily) supplied —
`pageid` absent or 0 and `title` absent or empty; whenever at least one
identifier is supplied, including when both are, that error is never
raised (`pageid` takes priority when both are given). -/
theorem get_boss_wikitext_invalid_argument_iff (pageid : Option Nat) (title : Option String)
    (outcome : FetchOutcome) :
    is_invalid_argument_error (get_boss_wikitext pageid title outcome) =
      (!pyTruthyNat pageid && !pyTruthyStrOpt title) := by
  unfold get_boss_wikitext
  by_cases h : (!pyTruthyNat pageid && !pyTruthyStrOpt title) = true
  · simp [h, is_invalid_argument_error]
  · rw [Bool.not_eq_true] at h
    rw [h, if_neg (by simp)]
    cases outcome with
    | exn e => simp [is_invalid_argument_error]
    | ok pages =>
      simp only []
      split <;> try rfl
      split <;> try rfl
      split <;> rfl

/-- C8 (witness): the characterization evaluated with only a title
supplied and with nothing supplied. -/
theorem get_boss_wikitext_invalid_argument_iff_witness :
    is_invalid_argument_error (get_boss_wikitext none (some "Morgaroth") (.ok [])) =
      (!pyTruthyNat none && !pyTruthyStrOpt (some "Morgaroth")) ∧
    is_invalid_argument_error (get_boss_wikitext none none (.ok [])) =
      (!pyTruthyNat none && !pyTruthyStrOpt (none : Option String)) :=
  ⟨get_boss_wikitext_invalid_argument_iff none (some "Morgaroth") (.ok []),
   get_boss_wikitext_invalid_argument_iff none none (.ok [])⟩

/-- C4: whenever a run has successfully acquired the scraper lock, then
for every outcome of the guarded pipeline — normal completion, or an
exception raised anywhere during listing, per-item fetch/extract, image
resolution or persistence (`pipeline = .error e`) — `run_scraper_job`
releases the lock before returning: the final document is back to `idle`
with `last_run` stamped and `locked_at` cleared.  The embedding returns a
plain state rather than an `Except`, mirroring the source's outermost
`except Exception` handler: the pipeline exception is never propagated to
the caller. -/
theorem run_scraper_job_releases_lock (st : LockState) (t_acq t_rel : Nat)
    (pipeline : Except String Unit)
    (hacq : (acquire_scraper_lock (ensure_scraper_lock_document st) t_acq).2 = true) :
    run_scraper_job st t_acq t_rel pipeline =
      some { status := "idle", last_run := some t_rel, locked_at := none } := by
  unfold run_scraper_job
  cases hens : ensure_scraper_lock_document st with
  | none => cases st <;> simp [ensure_scraper_lock_document] at hens
  | some d =>
    rw [hens] at hacq
    by_cases hs : d.status = "idle"
    · simp only [acquire_scraper_lock, hs, if_true, eq_self_iff_true]
      cases pipeline <;> simp [release_scraper_lock]
    · simp [acquire_scraper_lock, hs] at hacq

/-- C4 (witness): a failing pipeline, run from no lock document, still
ends with the lock released. -/
theorem run_scraper_job_releases_lock_witness :
    (acquire_scraper_lock (ensure_scraper_lock_document none) 1).2 = true ∧
    run_scraper_job none 1 2 (Except.error "boom") =
      some { status := "idle", last_run := some 2, locked_at := none } :=
  ⟨by decide, run_scraper_job_releases_lock none 1 2 (Except.error "boom") (by decide)⟩

/-- `Char.isUpper` through `Char.toNat`. -/
theorem isUpper_toNat (c : Char) : c.isUpper = (65 ≤ c.toNat && c.toNat ≤ 90) := by
  simp [Char.isUpper, Char.toNat, ge_iff_le]
  rfl

/-- Lowercasing never produces an ASCII uppercase letter. -/
theorem pyLowerChar_isUpper_false (c : Char) : (pyLowerChar c).isUpper = false := by
  unfold pyLowerChar
  by_cases h : 65 ≤ c.toNat ∧ c.toNat ≤ 90
  · rw [if_pos h]
    have hv : (c.toNat + 32).isValidChar := Or.inl (by omega)
    have htn : (Char.ofNat (c.toNat + 32)).toNat = c.toNat + 32 := by
      unfold Char.ofNat
      rw [dif_pos hv]
      simp [Char.ofNatAux, Char.toNat, UInt32.toNat, BitVec.toNat_ofNatLt]
    rw [isUpper_toNat, htn]
    simp
    omega
  · rw [if_neg h, isUpper_toNat]
    simp
    omega

/-- The head surviving a `dropWhile` fails the predicate. -/
theorem dropWhile_head?_false {p : Char → Bool} :
    ∀ {l : List Char} {c : Char}, (l.dropWhile p).head? = some c → p c = false := by
  intro l
  induction l with
  | nil => intro c h; simp [List.dropWhile] at h
  | cons a t ih =>
    intro c h
    by_cases ha : p a
    · rw [List.dropWhile_cons_of_pos ha] at h
      exact ih h
    · rw [List.dropWhile_cons_of_neg ha] at h
      simp at h
      subst h
      simpa using ha

/-- `dropWhile` keeps only original members. -/
theorem mem_dropWhile {p : Char → Bool} :
    ∀ {l : List Char} {c : Char}, c ∈ l.dropWhile p → c ∈ l := by
  intro l
  induction l with
  | nil => intro c h; simp at h
  | cons a t ih =>
    intro c h
    by_cases ha : p a
    · rw [List.dropWhile_cons_of_pos ha] at h
      exact List.mem_cons_of_mem a (ih h)
    · rwa [List.dropWhile_cons_of_neg ha] at h

/-- `dropWhile` returns a suffix. -/
theorem dropWhile_suffix_exists (p : Char → Bool) :
    ∀ (l : List Char), ∃ t, t ++ l.dropWhile p = l := by
  intro l
  induction l with
  | nil => exact ⟨[], rfl⟩
  | cons a t ih =>
    by_cases ha : p a
    · obtain ⟨s, hs⟩ := ih
      exact ⟨a :: s, by rw [List.dropWhile_cons_of_pos ha, List.cons_append, hs]⟩
    · exact ⟨[], by rw [List.dropWhile_cons_of_neg ha, List.nil_append]⟩

/-- The head of a nonempty prefix is the head of the whole list. -/
theorem append_head? {α : Type} (a b : List α) (c : α) (h : a.head? = some c) :
    (a ++ b).head? = some c := by
  cases a with
  | nil => simp at h
  | cons x t => simpa using h

/-- `strip("-")` leaves no leading hyphen. -/
theorem stripDashChars_head?_ne (l : List Char) (c : Char)
    (h : (stripDashChars l).head? = some c) : c ≠ '-' := by
  unfold stripDashChars at h
  set m := l.dropWhile (fun c => c == '-') with hm
  obtain ⟨t, ht⟩ := dropWhile_suffix_exists (fun c => c == '-') m.reverse
  have hp : (m.reverse.dropWhile (fun c => c == '-')).reverse ++ t.reverse = m := by
    have := congrArg List.reverse ht
    simpa [List.reverse_append] using this
  have hmh : m.head? = some c := by
    rw [← hp]
    exact append_head? _ _ _ h
  have := dropWhile_head?_false hmh
  simpa using this

/-- `strip("-")` leaves no trailing hyphen. -/
theorem stripDashChars_getLast?_ne (l : List Char) (c : Char)
    (h : (stripDashChars l).getLast? = some c) : c ≠ '-' := by
  unfold stripDashChars at h
  rw [List.getLast?_reverse] at h
  have := dropWhile_head?_false h
  simpa using this

/-- `strip("-")` keeps only original members. -/
theorem mem_stripDashChars (l : List Char) (c : Char)
    (h : c ∈ stripDashChars l) : c ∈ l := by
  unfold stripDashChars at h
  rw [List.mem_reverse] at h
  have h2 := mem_dropWhile h
  rw [List.mem_reverse] at h2
  exact mem_dropWhile h2

/-- A character of the hyphen-collapsed list is either the substituted
hyphen or an original non-`[-\s]` character. -/
theorem mem_subDashSpaceRuns :
    ∀ (l : List Char) (c : Char), c ∈ subDashSpaceRuns l →
      c = '-' ∨ (c ∈ l ∧ dashSpace c = false) := by
  intro l
  induction l with
  | nil => intro c h; simp [subDashSpaceRuns] at h
  | cons a t ih =>
    intro c h
    unfold subDashSpaceRuns at h
    by_cases ha : dashSpace a
    · rw [if_pos ha] at h
      by_cases ht : headIsDashSpace t
      · rw [if_pos ht] at h
        rcases ih c h with h1 | ⟨h2, h3⟩
        · exact Or.inl h1
        · exact Or.inr ⟨List.mem_cons_of_mem a h2, h3⟩
      · rw [if_neg ht] at h
        rcases List.mem_cons.mp h with h1 | h1
        · exact Or.inl h1
        · rcases ih c h1 with h2 | ⟨h2, h3⟩
          · exact Or.inl h2
          · exact Or.inr ⟨List.mem_cons_of_mem a h2, h3⟩
    · rw [if_neg ha] at h
      rcases List.mem_cons.mp h with h1 | h1
      · subst h1
        exact Or.inr ⟨List.mem_cons_self c t, by simpa using ha⟩
      · rcases ih c h1 with h2 | ⟨h2, h3⟩
        · exact Or.inl h2
        · exact Or.inr ⟨List.mem_cons_of_mem a h2, h3⟩

/-- C5 (counterexample): the name `a_b` derives the slug `a_b`, which
contains an underscore — a character that is neither a lowercase letter,
a digit, nor a hyphen — because the regex class `\w` kept by the slug
derivation includes `_`; so the claimed character set is false for this
name. -/
theorem generate_slug_underscore_counterexample :
    generate_slug "a_b" = "a_b" ∧
    '_' ∈ (generate_slug "a_b").data ∧
    '_'.isLower = false ∧ '_'.isDigit = false ∧ '_' ≠ '-' := by
  decide

/-- C5 (amended): slug derivation is deterministic (a pure function of the
name) and the derived slug has no leading or trailing hyphen — `strip("-")`
is the final step for every input; and for names consisting solely of
ASCII characters the derived slug contains only lowercase letters, digits,
hyphens and underscores — the underscore admitted by the `\w` class.  The
character-set conjunct carries the ASCII hypothesis because it is where
the embedding is exact: Python's `\w`, `\s` and `str.lower` coincide with
their ASCII fragments on such names, while on non-ASCII names the
Unicode-aware `\w` also keeps word characters such as `中` (U+4E2D, which
is neither a lowercase letter, a digit, a hyphen nor an underscore), so no
such character-set bound holds of the program there and none is
asserted. -/
theorem generate_slug_props (name : String) :
    generate_slug name = generate_slug name ∧
    (generate_slug name).data.head? ≠ some '-' ∧
    (generate_slug name).data.getLast? ≠ some '-' ∧
    ((∀ c ∈ name.data, c.toNat < 128) →
      ∀ c ∈ (generate_slug name).data,
        c.isLower = true ∨ c.isDigit = true ∨ c = '-' ∨ c = '_') := by
  have hdata : (generate_slug name).data =
      stripDashChars (subDashSpaceRuns
        ((name.data.map pyLowerChar).filter
          (fun c => pyIsWordChar c || pyWhitespace c || c == '-'))) := rfl
  refine ⟨rfl, ?_, ?_, ?_⟩
  · intro h
    rw [hdata] at h
    exact stripDashChars_head?_ne _ _ h rfl
  · intro h
    rw [hdata] at h
    exact stripDashChars_getLast?_ne _ _ h rfl
  · intro _hascii c hc
    rw [hdata] at hc
    have hc1 := mem_stripDashChars _ _ hc
    rcases mem_subDashSpaceRuns _ _ hc1 with h1 | ⟨h2, h3⟩
    · exact Or.inr (Or.inr (Or.inl h1))
    · obtain ⟨hmem, hpred⟩ := List.mem_filter.mp h2
      have hnd : (c == '-') = false ∧ pyWhitespace c = false := by
        unfold dashSpace at h3
        exact ⟨by cases hh : (c == '-') <;> simp [hh] at h3 ⊢,
               by cases hh : pyWhitespace c <;> simp [hh] at h3 ⊢⟩
      rw [hnd.1, hnd.2] at hpred
      simp only [Bool.or_false] at hpred
      unfold pyIsWordChar at hpred
      rcases Bool.or_eq_true_iff.mp hpred with hal | hun
      · obtain ⟨a, _, ha⟩ := List.mem_map.mp hmem
        have hup : c.isUpper = false := by rw [← ha]; exact pyLowerChar_isUpper_false a
        unfold Char.isAlphanum Char.isAlpha at hal
        rw [hup] at hal
        simp only [Bool.false_or] at hal
        rcases Bool.or_eq_true_iff.mp hal with hl | hd
        · exact Or.inl hl
        · exact Or.inr (Or.inl hd)
      · exact Or.inr (Or.inr (Or.inr (by simpa using hun)))

/-- C5 (witness): `Foo Bar!` is an ASCII name whose slug is `foo-bar`; the
theorem applied there yields the hyphen-free ends and places its first
character in the permitted set. -/
theorem generate_slug_props_witness :
    (generate_slug "Foo Bar!").data.head? ≠ some '-' ∧
    (∀ c ∈ ("Foo Bar!" : String).data, c.toNat < 128) ∧
    'f' ∈ (generate_slug "Foo Bar!").data ∧
    ('f'.isLower = true ∨ 'f'.isDigit = true ∨ 'f' = '-' ∨ 'f' = '_') :=
  ⟨(generate_slug_props "Foo Bar!").2.1, by decide, by decide,
    (generate_slug_props "Foo Bar!").2.2.2 (by decide) 'f' (by decide)⟩
/-- The only `field_mapping` entry whose canonical field is `name` is the
key `name` itself. -/
theorem field_mapping_name_key {k : String} (h : dlookup field_mapping k = some "name") :
    k = "name" := by
  unfold dlookup at h
  rcases hf : field_mapping.find? (fun p => p.1 == k) with _ | pair
  · rw [hf] at h; simp at h
  · rw [hf] at h
    simp at h
    have hmem := List.mem_of_find?_eq_some hf
    have hpred := List.find?_some hf
    simp at hpred
    have hall : ∀ q ∈ field_mapping, q.2 = "name" → q.1 = "name" := by decide
    rw [← hpred]
    exact hall pair hmem h

/-- Effect of one parameter on the accumulated name: only a parameter
whose stripped lowercased name maps to the `name` field and whose
stripped value is nonempty overwrites it. -/
theorem apply_template_param_name (d : ExtractData) (p : TParam) :
    (apply_template_param d p).name =
      if pyLower (pyStrip p.name) == "name" && pyStrip p.value != "" then pyStrip p.value
      else d.name := by
  unfold apply_template_param
  dsimp only
  by_cases h1 : pyLower (pyStrip p.name) = "name"
  · rw [h1]
    have hdl : dlookup field_mapping "name" = some "name" := rfl
    rw [hdl]
    dsimp only
    by_cases h2 : pyStrip p.value = ""
    · rw [if_pos h2]
      have hb : (pyStrip p.value != "") = false := by
        simp [h2]
      rw [hb, Bool.and_false]
      rfl
    · rw [if_neg h2, if_pos rfl]
      have hb : (("name" == "name") && (pyStrip p.value != "")) = true := by
        simp [h2]
      rw [hb]
      rfl
  · have hcond : ((pyLower (pyStrip p.name) == "name") && (pyStrip p.value != "")) = false := by
      rw [beq_eq_false_iff_ne.mpr h1, Bool.false_and]
    rw [hcond]
    simp only [Bool.false_eq_true, if_false]
    rcases hdl : dlookup field_mapping (pyLower (pyStrip p.name)) with _ | f
    · rfl
    · have hf : f ≠ "name" := fun he => h1 (field_mapping_name_key (he ▸ hdl))
      dsimp only
      by_cases hv : pyStrip p.value = ""
      · rw [if_pos hv]
      · rw [if_neg hv, if_neg hf]
        by_cases h3 : f = "image"
        · rw [if_pos h3]
        · rw [if_neg h3]
          by_cases h4 : f = "hp"
          · rw [if_pos h4]
          · rw [if_neg h4]
            by_cases h5 : f = "exp"
            · rw [if_pos h5]
            · rw [if_neg h5]
              by_cases h6 : f = "location"
              · rw [if_pos h6]
              · rw [if_neg h6]
                by_cases h7 : f = "bosstiary_class"
                · rw [if_pos h7]
                · rw [if_neg h7]
                  rcases hcw : clean_wiki_text (pyStrip p.value) with _ | cv
                  · rfl
                  · dsimp only
                    by_cases h8 : cv = ""
                    · rw [if_pos h8]
                    · rw [if_neg h8]
                      by_cases h9 : f = "walks_through"
                      · rw [if_pos h9]
                      · rw [if_neg h9]
                        by_cases h10 : f = "elemental_weaknesses"
                        · rw [if_pos h10]
                        · rw [if_neg h10]
                          by_cases h11 : f = "elemental_resistances"
                          · rw [if_pos h11]
                          · rw [if_neg h11]
                            by_cases h12 : f = "immunities"
                            · rw [if_pos h12]
                            · rw [if_neg h12]


/-- `getLast?` of a cons keeps the tail's last element. -/
theorem getLast?_cons_of_some {α : Type} {l : List α} {v : α} (a : α)
    (h : l.getLast? = some v) : (a :: l).getLast? = some v := by
  cases l with
  | nil => simp at h
  | cons b t => rw [List.getLast?_cons_cons]; exact h

/-- The parameter fold leaves as name the last nonempty explicit `name`
parameter, defaulting to the initial name. -/
theorem foldl_apply_template_param_name (ps : List TParam) :
    ∀ (d : ExtractData), (ps.foldl apply_template_param d).name =
      match (ps.filterMap (fun p =>
          if pyLower (pyStrip p.name) == "name" && pyStrip p.value != "" then
            some (pyStrip p.value)
          else none)).getLast? with
      | some v => v
      | none => d.name := by
  induction ps with
  | nil => intro d; rfl
  | cons p rest ih =>
    intro d
    rw [List.foldl_cons, ih (apply_template_param d p), List.filterMap_cons]
    by_cases hp : (pyLower (pyStrip p.name) == "name" && pyStrip p.value != "") = true
    · rw [if_pos hp]
      rcases hl : (rest.filterMap (fun p =>
          if pyLower (pyStrip p.name) == "name" && pyStrip p.value != "" then
            some (pyStrip p.value)
          else none)).getLast? with _ | v
      · rw [hl, List.getLast?_eq_none_iff.mp hl]
        dsimp only
        rw [apply_template_param_name, if_pos hp]
        rfl
      · rw [hl, getLast?_cons_of_some _ hl]
    · rw [if_neg hp]
      rcases hl : (rest.filterMap (fun p =>
          if pyLower (pyStrip p.name) == "name" && pyStrip p.value != "" then
            some (pyStrip p.value)
          else none)).getLast? with _ | v
      · rw [hl]
        dsimp only
        rw [apply_template_param_name, if_neg hp]
      · rw [hl]


/-- `BossModel` construction copies the assembled name. -/
theorem mkBossModel_name (d : ExtractData) (b : Option BosstiaryStats) :
    (mkBossModel d b).name = d.name := rfl

/-- Attaching visuals never changes the name. -/
theorem bossmodel_ite_visuals_name (c : Prop) [Decidable c] (bm : BossModel)
    (v : Option BossVisuals) :
    (if c then { bm with visuals := v } else bm).name = bm.name := by
  split <;> rfl

/-- An explicit name extracted from the parameters is nonempty, because
empty values are skipped. -/
theorem explicit_name_ne_empty (t : Template) (v : String)
    (hl : (t.params.filterMap (fun p =>
        if pyLower (pyStrip p.name) == "name" && pyStrip p.value != "" then
          some (pyStrip p.value)
        else none)).getLast? = some v) : v ≠ "" := by
  have hmem := List.mem_of_mem_getLast? (l := _) (by rw [hl]; exact rfl)
  obtain ⟨p, _, hp⟩ := List.mem_filterMap.mp hmem
  by_cases hc : (pyLower (pyStrip p.name) == "name" && pyStrip p.value != "") = true
  · rw [if_pos hc] at hp
    have hv := Option.some.inj hp
    have hne := ((Bool.and_eq_true _ _).mp hc).2
    rw [hv] at hne
    intro he
    rw [he] at hne
    simp at hne
  · rw [if_neg hc] at hp
    exact Option.noConfusion hp

/-- C7 (amended): the extracted record's name is chosen by this
precedence: the last nonempty explicit `name` template parameter when one
is present; otherwise the caller-supplied fallback name when truthy;
otherwise the first unnamed/positional template parameter (whose stripped
value `positional_name` returns, the empty string when there is none).  A
name missing after all three is not an error: extraction is total and the
empty name is permitted.  (The claim's order — positional parameter
before fallback — does not hold; the code consults the positional
parameter only when no fallback was supplied.) -/
theorem extract_template_data_name_precedence (t : Template) (bn : Option String) :
    (extract_template_data t bn).name =
      match (t.params.filterMap (fun p =>
          if pyLower (pyStrip p.name) == "name" && pyStrip p.value != "" then
            some (pyStrip p.value)
          else none)).getLast? with
      | some v => v
      | none => if pyTruthyStrOpt bn then bn.getD "" else positional_name t := by
  unfold extract_template_data
  dsimp only
  rw [bossmodel_ite_visuals_name, mkBossModel_name]
  cases bn with
  | none =>
    unfold initialExtractData
    dsimp only
    rw [if_pos rfl, ite_self]
    rw [foldl_apply_template_param_name]
    rcases hl : (t.params.filterMap (fun p =>
        if pyLower (pyStrip p.name) == "name" && pyStrip p.value != "" then
          some (pyStrip p.value)
        else none)).getLast? with _ | v
    · rfl
    · rfl
  | some b =>
    unfold initialExtractData
    dsimp only
    by_cases hb : b = ""
    · subst hb
      rw [if_pos rfl]
      rw [if_neg (by simp : ¬("" ≠ ""))]
      rw [ite_self]
      rw [foldl_apply_template_param_name]
      rcases hl : (t.params.filterMap (fun p =>
          if pyLower (pyStrip p.name) == "name" && pyStrip p.value != "" then
            some (pyStrip p.value)
          else none)).getLast? with _ | v
      · rfl
      · rfl
    · rw [if_neg hb, if_pos hb]
      by_cases hn : (t.params.foldl apply_template_param
          { name := b, hp := HpRaw.vnone, exp := HpRaw.vnone, location := none,
            walks_through := ListRaw.vlist [], elemental_weaknesses := ListRaw.vlist [],
            elemental_resistances := ListRaw.vlist [], immunities := ListRaw.vlist [],
            bosstiary_class := none, image_filename := none }).name = ""
      · exfalso
        rw [foldl_apply_template_param_name] at hn
        rcases hl : (t.params.filterMap (fun p =>
            if pyLower (pyStrip p.name) == "name" && pyStrip p.value != "" then
              some (pyStrip p.value)
            else none)).getLast? with _ | v
        · rw [hl] at hn
          exact hb hn
        · rw [hl] at hn
          exact explicit_name_ne_empty t v hl hn
      · rw [if_neg hn]
        rw [foldl_apply_template_param_name]
        rcases hl : (t.params.filterMap (fun p =>
            if pyLower (pyStrip p.name) == "name" && pyStrip p.value != "" then
              some (pyStrip p.value)
            else none)).getLast? with _ | v
        · rw [hl]
          have hrhs : pyTruthyStrOpt (some b) = true := by
            simp [pyTruthyStrOpt, hb]
          rw [hrhs]
          rfl
        · rw [hl]

/-- C7 (counterexample): a template carrying only the positional parameter
`PosName`, extracted with the fallback name `Fallback`, yields the name
`Fallback` — not the positional parameter — so the claimed precedence
(explicit, then positional, then fallback) is false at this input. -/
theorem extract_name_fallback_beats_positional :
    (extract_template_data
        { name := "Infobox Boss", params := [{ name := "1", value := "PosName" }] }
        (some "Fallback")).name = "Fallback" ∧
    "Fallback" ≠ "PosName" := by
  exact ⟨rfl, by decide⟩

/-- C7 (witness): the precedence characterization evaluated on a concrete
template with explicit name, positional parameter and fallback. -/
theorem extract_template_data_name_precedence_witness :
    (extract_template_data
        { name := "Infobox Boss",
          params := [{ name := "1", value := "PosName" },
                     { name := "name", value := "Explicit" }] }
        (some "Fallback")).name =
      match ([{ name := "1", value := "PosName" },
              { name := "name", value := "Explicit" }] : List TParam).filterMap
          (fun p =>
            if pyLower (pyStrip p.name) == "name" && pyStrip p.value != "" then
              some (pyStrip p.value)
            else none) |>.getLast? with
      | some v => v
      | none =>
        if pyTruthyStrOpt (some "Fallback") then (some "Fallback").getD ""
        else positional_name
          { name := "Infobox Boss",
            params := [{ name := "1", value := "PosName" },
                       { name := "name", value := "Explicit" }] } :=
  extract_template_data_name_precedence
    { name := "Infobox Boss",
      params := [{ name := "1", value := "PosName" },
                 { name := "name", value := "Explicit" }] }
    (some "Fallback")
/-- Attaching visuals never changes speed. -/
theorem bossmodel_ite_visuals_speed (c : Prop) [Decidable c] (bm : BossModel)
    (v : Option BossVisuals) :
    (if c then { bm with visuals := v } else bm).speed = bm.speed := by
  split <;> rfl

/-- Attaching visuals never changes version. -/
theorem bossmodel_ite_visuals_version (c : Prop) [Decidable c] (bm : BossModel)
    (v : Option BossVisuals) :
    (if c then { bm with visuals := v } else bm).version = bm.version := by
  split <;> rfl

/-- Attaching visuals never changes abilities. -/
theorem bossmodel_ite_visuals_abilities (c : Prop) [Decidable c] (bm : BossModel)
    (v : Option BossVisuals) :
    (if c then { bm with visuals := v } else bm).abilities = bm.abilities := by
  split <;> rfl

/-- Attaching visuals never changes sounds. -/
theorem bossmodel_ite_visuals_sounds (c : Prop) [Decidable c] (bm : BossModel)
    (v : Option BossVisuals) :
    (if c then { bm with visuals := v } else bm).sounds = bm.sounds := by
  split <;> rfl

/-- Attaching visuals never changes loot. -/
theorem bossmodel_ite_visuals_loot (c : Prop) [Decidable c] (bm : BossModel)
    (v : Option BossVisuals) :
    (if c then { bm with visuals := v } else bm).loot = bm.loot := by
  split <;> rfl

/-- Attaching visuals never changes resistances. -/
theorem bossmodel_ite_visuals_resistances (c : Prop) [Decidable c] (bm : BossModel)
    (v : Option BossVisuals) :
    (if c then { bm with visuals := v } else bm).resistances = bm.resistances := by
  split <;> rfl

/-- Field extraction maps no template parameter onto speed, version,
abilities, sounds, loot or the percent-resistances mapping, so every
record built by `_extract_template_data` keeps their initial empty
values. -/
theorem extract_template_data_constant_fields (t : Template) (bn : Option String) :
    (extract_template_data t bn).speed = none ∧
    (extract_template_data t bn).version = none ∧
    (extract_template_data t bn).abilities = [] ∧
    (extract_template_data t bn).sounds = [] ∧
    (extract_template_data t bn).loot = [] ∧
    (extract_template_data t bn).resistances = [] := by
  unfold extract_template_data
  dsimp only
  refine ⟨?_, ?_, ?_, ?_, ?_, ?_⟩
  · rw [bossmodel_ite_visuals_speed]
    rfl
  · rw [bossmodel_ite_visuals_version]
    rfl
  · rw [bossmodel_ite_visuals_abilities]
    rfl
  · rw [bossmodel_ite_visuals_sounds]
    rfl
  · rw [bossmodel_ite_visuals_loot]
    rfl
  · rw [bossmodel_ite_visuals_resistances]
    rfl

/-- C10: for every markup and fallback name accepted by the extractor,
the returned record always has speed and version absent, abilities,
sounds and loot equal to the empty list, and the resistances mapping
empty: no template parameter (including `speed=`, `earth=`, `fire=`) is
mapped onto any of these fields. -/
theorem parse_constant_fields (w : String) (bn : Option String) (m : BossModel)
    (hm : WikitextParser.parse w bn = Except.ok m) :
    m.speed = none ∧ m.version = none ∧ m.abilities = [] ∧ m.sounds = [] ∧
    m.loot = [] ∧ m.resistances = [] := by
  unfold WikitextParser.parse at hm
  by_cases hw : w = ""
  · rw [if_pos hw] at hm
    exact Except.noConfusion hm
  · rw [if_neg hw] at hm
    rcases hf : find_infobox_boss (parse_flat_templates w) with _ | t
    · rw [hf] at hm
      exact Except.noConfusion hm
    · rw [hf] at hm
      have he := Except.ok.inj hm
      rw [← he]
      exact extract_template_data_constant_fields t bn

/-- C10 (witness): the invariant evaluated on the end-to-end markup,
whose record the parser accepts. -/
theorem parse_constant_fields_witness :
    let m : BossModel :=
      { name := "Abyssador", hp := some 340000, exp := some 400000,
        speed := none, resistances := [],
        walks_through := ["Fire", "Energy"],
        visuals := some { gif_url := none, filename := some "Abyssador.gif" } }
    m.speed = none ∧ m.version = none ∧ m.abilities = [] ∧ m.sounds = [] ∧
    m.loot = [] ∧ m.resistances = [] :=
  parse_constant_fields abyssadorMarkup none _ (by rfl)
/-- Looking up the inserted key finds the inserted value. -/
theorem dlookup_dictInsert_self (d : List (String × String)) (k v : String) :
    dlookup (dictInsert d k v) k = some v := by
  induction d with
  | nil => simp [dictInsert, dlookup, List.find?]
  | cons p rest ih =>
    rcases p with ⟨k1, v1⟩
    unfold dictInsert
    by_cases h : k1 = k
    · rw [if_pos h]
      simp [dlookup, List.find?]
    · rw [if_neg h]
      unfold dlookup at ih ⊢
      rw [List.find?_cons_of_neg _ (by simpa using h)]
      exact ih

/-- Insertion leaves other keys untouched. -/
theorem dlookup_dictInsert_ne (d : List (String × String)) (k v k2 : String)
    (h : k2 ≠ k) : dlookup (dictInsert d k v) k2 = dlookup d k2 := by
  have hbk : ¬((fun (q : String × String) => q.1 == k2) (k, v) = true) :=
    fun hbe => h (beq_iff_eq.mp hbe).symm
  induction d with
  | nil =>
    unfold dictInsert dlookup
    simp only [List.find?]
    rw [Bool.eq_false_iff.mpr (fun hbe => h (beq_iff_eq.mp hbe).symm)]
  | cons p rest ih =>
    rcases p with ⟨k1, v1⟩
    unfold dictInsert
    by_cases h1 : k1 = k
    · rw [if_pos h1]
      unfold dlookup
      rw [@List.find?_cons_of_neg _ (fun q => q.1 == k2) (k, v) rest hbk, h1,
        @List.find?_cons_of_neg _ (fun q => q.1 == k2) (k, v1) rest
          (fun hbe => h (beq_iff_eq.mp hbe).symm)]
    · rw [if_neg h1]
      unfold dlookup at ih ⊢
      by_cases h2 : k1 = k2
      · rw [@List.find?_cons_of_pos _ (fun q => q.1 == k2) (k1, v1) _ (by simpa using h2),
          @List.find?_cons_of_pos _ (fun q => q.1 == k2) (k1, v1) _ (by simpa using h2)]
      · rw [@List.find?_cons_of_neg _ (fun q => q.1 == k2) (k1, v1) _ (by simpa using h2),
          @List.find?_cons_of_neg _ (fun q => q.1 == k2) (k1, v1) _ (by simpa using h2)]
        exact ih

/-- Entries after insertion are old entries or the inserted pair. -/
theorem mem_dictInsert (d : List (String × String)) (k v : String)
    (q : String × String) (h : q ∈ dictInsert d k v) : q ∈ d ∨ q = (k, v) := by
  induction d with
  | nil => simpa [dictInsert] using h
  | cons p rest ih =>
    rcases p with ⟨k1, v1⟩
    unfold dictInsert at h
    by_cases h1 : k1 = k
    · rw [if_pos h1] at h
      rcases List.mem_cons.mp h with h2 | h2
      · exact Or.inr h2
      · exact Or.inl (List.mem_cons_of_mem _ h2)
    · rw [if_neg h1] at h
      rcases List.mem_cons.mp h with h2 | h2
      · exact Or.inl (h2 ▸ List.mem_cons_self _ _)
      · rcases ih h2 with h3 | h3
        · exact Or.inl (List.mem_cons_of_mem _ h3)
        · exact Or.inr h3

/-- A successful lookup exhibits a member. -/
theorem dlookup_some_mem {β : Type} (d : List (String × β)) (k : String) (v : β)
    (h : dlookup d k = some v) : (k, v) ∈ d := by
  unfold dlookup at h
  rcases hf : d.find? (fun p => p.1 == k) with _ | q
  · rw [hf] at h; exact Option.noConfusion h
  · rw [hf] at h
    have hq := List.mem_of_find?_eq_some hf
    have hk := List.find?_some hf
    simp at hk h
    have : q = (k, v) := by
      rcases q with ⟨a, b⟩
      simp at hk h
      rw [hk, h]
    rw [← this]
    exact hq

/-- Lookup misses keys not present. -/
theorem dlookup_eq_none_of_not_mem_keys {β : Type} (d : List (String × β)) (k : String)
    (h : k ∉ d.map Prod.fst) : dlookup d k = none := by
  induction d with
  | nil => rfl
  | cons p rest ih =>
    simp at h
    unfold dlookup
    rw [List.find?_cons_of_neg _ (by simpa using fun he => h.1 (by rw [← he]))]
    exact ih (by simpa using h.2)

/-- `dict.update` with a mapping lacking the key preserves its binding. -/
theorem dlookup_dictUpdate_of_none (d e : List (String × String)) (k : String)
    (h : dlookup e k = none) : dlookup (dictUpdate d e) k = dlookup d k := by
  induction e generalizing d with
  | nil => rfl
  | cons p rest ih =>
    rcases p with ⟨k1, v1⟩
    unfold dictUpdate at ih ⊢
    rw [List.foldl_cons]
    have hk1 : k1 ≠ k := by
      intro he
      unfold dlookup at h
      rw [@List.find?_cons_of_pos _ (fun q => q.1 == k) (k1, v1) _ (by simpa using he)] at h
      exact Option.noConfusion h
    have hrest : dlookup rest k = none := by
      unfold dlookup at h ⊢
      rwa [@List.find?_cons_of_neg _ (fun q => q.1 == k) (k1, v1) _ (by simpa using hk1)] at h
    rw [ih _ hrest, dlookup_dictInsert_ne _ _ _ _ (Ne.symm hk1)]

/-- `dict.update` with a duplicate-free mapping containing the key
rebinds it. -/
theorem dlookup_dictUpdate_of_some (d e : List (String × String)) (k v : String)
    (hnd : (e.map Prod.fst).Nodup) (h : dlookup e k = some v) :
    dlookup (dictUpdate d e) k = some v := by
  induction e generalizing d with
  | nil => exact Option.noConfusion h
  | cons p rest ih =>
    rcases p with ⟨k1, v1⟩
    unfold dictUpdate at ih ⊢
    rw [List.foldl_cons]
    by_cases hk1 : k1 = k
    · subst hk1
      have hv1 : v1 = v := by
        unfold dlookup at h
        rw [@List.find?_cons_of_pos _ (fun q => q.1 == k1) (k1, v1) _ (by simp)] at h
        simpa using h
      have hnd2 : (k1 :: rest.map Prod.fst).Nodup := by simpa using hnd
      have hknotin : k1 ∉ rest.map Prod.fst := (List.nodup_cons.mp hnd2).1
      have hrest : dlookup rest k1 = none := dlookup_eq_none_of_not_mem_keys _ _ hknotin
      have hupd := dlookup_dictUpdate_of_none (dictInsert d k1 v1) rest k1 hrest
      unfold dictUpdate at hupd
      rw [hupd, dlookup_dictInsert_self, hv1]
    · have hrest : dlookup rest k = some v := by
        unfold dlookup at h ⊢
        rwa [@List.find?_cons_of_neg _ (fun q => q.1 == k) (k1, v1) _ (by simpa using hk1)] at h
      have hnd2 : (k1 :: rest.map Prod.fst).Nodup := by simpa using hnd
      exact ih _ (List.nodup_cons.mp hnd2).2 hrest

/-- Entries after `dict.update` come from either dictionary. -/
theorem mem_dictUpdate (d e : List (String × String)) (q : String × String)
    (h : q ∈ dictUpdate d e) : q ∈ d ∨ q ∈ e := by
  induction e generalizing d with
  | nil => exact Or.inl h
  | cons p rest ih =>
    unfold dictUpdate at h ih
    rw [List.foldl_cons] at h
    rcases ih _ h with h1 | h1
    · rcases mem_dictInsert _ _ _ _ h1 with h2 | h2
      · exact Or.inl h2
      · exact Or.inr (h2 ▸ List.mem_cons_self _ _)
    · exact Or.inr (List.mem_cons_of_mem _ h1)

/-- Entries of an accumulated sequence of updates come from the initial
dictionary or one of the updates. -/
theorem mem_foldl_dictUpdate {α : Type} (g : α → List (String × String)) :
    ∀ (l : List α) (acc : List (String × String)) (q : String × String),
      q ∈ l.foldl (fun a x => dictUpdate a (g x)) acc → q ∈ acc ∨ ∃ x ∈ l, q ∈ g x := by
  intro l
  induction l with
  | nil => intro acc q h; exact Or.inl h
  | cons x rest ih =>
    intro acc q h
    rw [List.foldl_cons] at h
    rcases ih _ _ h with h1 | ⟨y, hy, hq⟩
    · rcases mem_dictUpdate _ _ _ h1 with h2 | h2
      · exact Or.inl h2
      · exact Or.inr ⟨x, List.mem_cons_self _ _, h2⟩
    · exact Or.inr ⟨y, List.mem_cons_of_mem _ hy, hq⟩

/-- Lookup in a keyed `map` association. -/
theorem dlookup_map_pair (g : String → String) :
    ∀ (l : List String) (f : String), f ∈ l →
      dlookup (l.map (fun x => (x, g x))) f = some (g f) := by
  intro l
  induction l with
  | nil => intro f h; simp at h
  | cons x rest ih =>
    intro f h
    by_cases hx : x = f
    · subst hx
      unfold dlookup
      rw [List.map_cons, @List.find?_cons_of_pos _ (fun q => q.1 == x) (x, g x) _ (by simp)]
      rfl
    · have hf : f ∈ rest := by
        rcases List.mem_cons.mp h with h1 | h1
        · exact absurd h1.symm hx
        · exact h1
      unfold dlookup at ih ⊢
      rw [List.map_cons, @List.find?_cons_of_neg _ (fun q => q.1 == f) (x, g x) _
        (by simpa using hx)]
      exact ih f hf

/-- The keys of a keyed `map` association are the original list. -/
theorem map_pair_keys (g : String → String) :
    ∀ l : List String, (l.map (fun x => (x, g x))).map Prod.fst = l := by
  intro l
  induction l with
  | nil => rfl
  | cons x rest ih => simp only [List.map_cons, ih]

/-- `_resolve_batch` returns exactly the batch's filenames as keys. -/
theorem resolve_batch_keys (o : BatchOutcome) (l : List String) :
    (resolve_batch o l).map Prod.fst = l := by
  cases o with
  | exn => exact map_pair_keys _ l
  | ok r => exact map_pair_keys _ l

/-- Every value `_resolve_batch` assigns is the placeholder or a URL
carried by the response. -/
theorem resolve_batch_mem_value (o : BatchOutcome) (l : List String)
    (q : String × String) (h : q ∈ resolve_batch o l) :
    q.2 = PLACEHOLDER_URL ∨ q.2 ∈ outcomeUrls o := by
  cases o with
  | exn =>
    unfold resolve_batch at h
    obtain ⟨f, hfl, rfl⟩ := List.mem_map.mp h
    exact Or.inl rfl
  | ok r =>
    unfold resolve_batch at h
    obtain ⟨f, hfl, rfl⟩ := List.mem_map.mp h
    dsimp only
    unfold batch_value
    dsimp only
    rcases hu : dlookup (url_map r) ((dlookup (redirect_map r) f).getD f) with _ | u
    · exact Or.inl rfl
    · refine Or.inr ?_
      have hmem := dlookup_some_mem _ _ _ hu
      have hval : ∀ (ps : List PageData) (acc : List (String × String)),
          (∀ w ∈ acc, w.2 ∈ r.pages.filterMap page_url) →
          (∀ p ∈ ps, p ∈ r.pages) →
          ∀ w ∈ ps.foldl (fun acc2 p =>
              match page_url p with
              | some u2 => dictInsert acc2 p.title u2
              | none => acc2) acc, w.2 ∈ r.pages.filterMap page_url := by
        intro ps
        induction ps with
        | nil => intro acc hacc _ w hw; exact hacc w hw
        | cons p rest ihp =>
          intro acc hacc hsub w hw
          rw [List.foldl_cons] at hw
          rcases hpu : page_url p with _ | u2
          · rw [hpu] at hw
            exact ihp acc hacc (fun p2 hp2 => hsub p2 (List.mem_cons_of_mem _ hp2)) w hw
          · rw [hpu] at hw
            refine ihp _ ?_ (fun p2 hp2 => hsub p2 (List.mem_cons_of_mem _ hp2)) w hw
            intro w2 hw2
            rcases mem_dictInsert _ _ _ _ hw2 with h2 | h2
            · exact hacc w2 h2
            · rw [h2]
              exact List.mem_filterMap.mpr ⟨p, hsub p (List.mem_cons_self _ _), hpu⟩
      have hin : ((dlookup (redirect_map r) f).getD f, u) ∈ url_map r := hmem
      have hfin := hval r.pages [] (by intro w hw; simp at hw) (fun p2 hp2 => hp2) _ hin
      simpa [outcomeUrls] using hfin

/-- Membership in the deduplication accumulator. -/
theorem mem_dedupFirstGo :
    ∀ (l seen : List String) (f : String),
      f ∈ dedupFirstGo seen l ↔ f ∈ l ∧ f ∉ seen := by
  intro l
  induction l with
  | nil =>
    intro seen f
    simp [dedupFirstGo]
  | cons x rest ih =>
    intro seen f
    unfold dedupFirstGo
    by_cases hx : x ∈ seen
    · rw [if_pos hx, ih]
      constructor
      · rintro ⟨h1, h2⟩
        exact ⟨List.mem_cons_of_mem _ h1, h2⟩
      · rintro ⟨h1, h2⟩
        rcases List.mem_cons.mp h1 with h3 | h3
        · exact absurd (h3 ▸ hx) h2
        · exact ⟨h3, h2⟩
    · rw [if_neg hx]
      constructor
      · intro h1
        rcases List.mem_cons.mp h1 with h3 | h3
        · subst h3
          exact ⟨List.mem_cons_self _ _, hx⟩
        · obtain ⟨h4, h5⟩ := (ih _ f).mp h3
          exact ⟨List.mem_cons_of_mem _ h4, fun hm => h5 (List.mem_cons_of_mem _ hm)⟩
      · rintro ⟨h1, h2⟩
        rcases List.mem_cons.mp h1 with h3 | h3
        · exact h3 ▸ List.mem_cons_self _ _
        · by_cases hfx : f = x
          · exact hfx ▸ List.mem_cons_self _ _
          · exact List.mem_cons_of_mem _ ((ih _ f).mpr
              ⟨h3, fun hm => h2 (by rcases List.mem_cons.mp hm with h6 | h6
                                    · exact absurd h6 hfx
                                    · exact h6)⟩)

/-- Deduplication preserves membership. -/
theorem mem_dedupFirst (l : List String) (f : String) : f ∈ dedupFirst l ↔ f ∈ l := by
  unfold dedupFirst
  rw [mem_dedupFirstGo]
  simp

/-- Deduplicating a duplicate-free list against unseen keys is the
identity. -/
theorem dedupFirstGo_eq_self :
    ∀ (l seen : List String), l.Nodup → (∀ x ∈ l, x ∉ seen) →
      dedupFirstGo seen l = l := by
  intro l
  induction l with
  | nil => intro seen _ _; rfl
  | cons x rest ih =>
    intro seen hnd hdis
    unfold dedupFirstGo
    rw [if_neg (hdis x (List.mem_cons_self _ _))]
    have hnd2 := List.nodup_cons.mp hnd
    rw [ih _ hnd2.2]
    intro y hy
    intro hm
    rcases List.mem_cons.mp hm with h1 | h1
    · exact hnd2.1 (h1 ▸ hy)
    · exact hdis y (List.mem_cons_of_mem _ hy) h1

/-- Deduplicating a duplicate-free list is the identity. -/
theorem dedupFirst_eq_self (l : List String) (h : l.Nodup) : dedupFirst l = l :=
  dedupFirstGo_eq_self l [] h (fun x _ => List.not_mem_nil x)

/-- The defensive final pass never overwrites an existing binding. -/
theorem dlookup_fillMissing_of_some :
    ∀ (u : List String) (d : List (String × String)) (f v : String),
      dlookup d f = some v → dlookup (fillMissing d u) f = some v := by
  intro u
  induction u with
  | nil => intro d f v h; exact h
  | cons g rest ih =>
    intro d f v h
    unfold fillMissing at ih ⊢
    rw [List.foldl_cons]
    by_cases hg : (dlookup d g).isSome
    · rw [if_pos hg]
      exact ih d f v h
    · rw [if_neg hg]
      by_cases hfg : f = g
      · subst hfg
        rw [h] at hg
        simp at hg
      · exact ih _ f v (by rw [dlookup_dictInsert_ne _ _ _ _ hfg]; exact h)

/-- After the final pass every requested filename has a binding. -/
theorem fillMissing_isSome :
    ∀ (u : List String) (d : List (String × String)) (f : String), f ∈ u →
      (dlookup (fillMissing d u) f).isSome := by
  intro u
  induction u with
  | nil => intro d f h; simp at h
  | cons g rest ih =>
    intro d f h
    unfold fillMissing at ih ⊢
    rw [List.foldl_cons]
    rcases List.mem_cons.mp h with h1 | h1
    · subst h1
      by_cases hg : (dlookup d f).isSome
      · rw [if_pos hg]
        obtain ⟨v, hv⟩ := Option.isSome_iff_exists.mp hg
        have := dlookup_fillMissing_of_some rest d f v hv
        unfold fillMissing at this
        rw [this]
        rfl
      · rw [if_neg hg]
        have := dlookup_fillMissing_of_some rest (dictInsert d f PLACEHOLDER_URL) f
          PLACEHOLDER_URL (dlookup_dictInsert_self _ _ _)
        unfold fillMissing at this
        rw [this]
        rfl
    · by_cases hg : (dlookup d g).isSome
      · rw [if_pos hg]
        exact ih d f h1
      · rw [if_neg hg]
        exact ih _ f h1

/-- The final pass only adds placeholder bindings. -/
theorem mem_fillMissing :
    ∀ (u : List String) (d : List (String × String)) (q : String × String),
      q ∈ fillMissing d u → q ∈ d ∨ q.2 = PLACEHOLDER_URL := by
  intro u
  induction u with
  | nil => intro d q h; exact Or.inl h
  | cons g rest ih =>
    intro d q h
    unfold fillMissing at ih h
    rw [List.foldl_cons] at h
    by_cases hg : (dlookup d g).isSome
    · rw [if_pos hg] at h
      exact ih d q h
    · rw [if_neg hg] at h
      rcases ih _ q h with h1 | h1
      · rcases mem_dictInsert _ _ _ _ h1 with h2 | h2
        · exact Or.inl h2
        · exact Or.inr (by rw [h2])
      · exact Or.inr h1

/-- C3: for every ordered list of filenames and every outcome of the
upstream batch calls, `resolve_images` returns (the embedding is a total
function — no exception reaches the caller) a mapping in which every
distinct input filename is a key, bound either to the fixed placeholder
URL — as happens whenever resolution failed for any reason (missing page,
empty image info, HTTP error, network error, malformed response) — or to
a URL carried by one of the upstream responses. -/
theorem resolve_images_coverage (oracle : Nat → BatchOutcome) (filenames : List String)
    (f : String) (hf : f ∈ filenames) :
    ∃ u, dlookup (resolve_images oracle filenames) f = some u ∧
      (u = PLACEHOLDER_URL ∨ ∃ i, u ∈ outcomeUrls (oracle i)) := by
  unfold resolve_images
  have hne : filenames.isEmpty = false := by
    cases filenames with
    | nil => simp at hf
    | cons a rest => rfl
  rw [hne, if_neg Bool.false_ne_true]
  dsimp only
  have hfu : f ∈ dedupFirst filenames := (mem_dedupFirst _ _).mpr hf
  obtain ⟨u, hu⟩ := Option.isSome_iff_exists.mp
    (fillMissing_isSome (dedupFirst filenames)
      ((chunk_list (dedupFirst filenames) BATCH_SIZE).enum.foldl
        (fun (acc : List (String × String)) (ic : Nat × List String) =>
          dictUpdate acc (resolve_batch (oracle ic.1) ic.2)) []) f hfu)
  refine ⟨u, hu, ?_⟩
  have hmem := dlookup_some_mem _ _ _ hu
  rcases mem_fillMissing _ _ _ hmem with h1 | h1
  · rcases mem_foldl_dictUpdate
        (fun (ic : Nat × List String) => resolve_batch (oracle ic.1) ic.2) _ _ _ h1 with
      h2 | ⟨x, hx, hq⟩
    · simp at h2
    · rcases resolve_batch_mem_value _ _ _ hq with h3 | h3
      · exact Or.inl h3
      · exact Or.inr ⟨x.1, h3⟩
  · exact Or.inl h1

/-- A batch result binds every filename of the batch. -/
theorem dlookup_resolve_batch (o : BatchOutcome) (l : List String) (f : String)
    (hf : f ∈ l) : ∃ v, dlookup (resolve_batch o l) f = some v := by
  cases o with
  | exn => exact ⟨_, dlookup_map_pair _ l f hf⟩
  | ok r => exact ⟨_, dlookup_map_pair _ l f hf⟩

/-- C9: with exactly 55 distinct filenames the resolver partitions them
into exactly 2 upstream batch calls covering 50 and 5 filenames; when the
first batch call fails with an exception, each of its 50 filenames is
mapped to the placeholder URL, while each filename of the second batch is
still resolved exactly as a normal standalone resolution of that batch —
the failure does not abort processing of subsequent batches. -/
theorem resolve_images_batch_boundary (filenames : List String) (oracle : Nat → BatchOutcome)
    (hnd : filenames.Nodup) (hlen : filenames.length = 55)
    (hexn : oracle 0 = BatchOutcome.exn) :
    chunk_list (dedupFirst filenames) BATCH_SIZE =
      [filenames.take 50, filenames.drop 50] ∧
    (filenames.take 50).length = 50 ∧ (filenames.drop 50).length = 5 ∧
    (∀ f ∈ filenames.take 50,
      dlookup (resolve_images oracle filenames) f = some PLACEHOLDER_URL) ∧
    (∀ f ∈ filenames.drop 50,
      dlookup (resolve_images oracle filenames) f =
        dlookup (resolve_batch (oracle 1) (filenames.drop 50)) f) := by
  have hded : dedupFirst filenames = filenames := dedupFirst_eq_self _ hnd
  have hdroplen : (filenames.drop 50).length = 5 := by
    rw [List.length_drop, hlen]
  have hchunks : chunk_list (dedupFirst filenames) BATCH_SIZE =
      [filenames.take 50, filenames.drop 50] := by
    rw [hded]
    unfold chunk_list BATCH_SIZE
    rw [hlen]
    have h2 : (55 + 50 - 1) / 50 = 2 := by norm_num
    rw [h2]
    show [(filenames.drop (0 * 50)).take 50, (filenames.drop (1 * 50)).take 50] = _
    have hd0 : (0 : Nat) * 50 = 0 := by norm_num
    have hd1 : (1 : Nat) * 50 = 50 := by norm_num
    have htdrop : (filenames.drop 50).take 50 = filenames.drop 50 :=
      List.take_of_length_le (by rw [hdroplen]; norm_num)
    rw [hd0, hd1, List.drop_zero, htdrop]
  have hne : filenames.isEmpty = false := by
    cases filenames with
    | nil => simp at hlen
    | cons a rest => rfl
  have hndA : (filenames.take 50).Nodup := hnd.sublist (List.take_sublist 50 filenames)
  have hndB : (filenames.drop 50).Nodup := hnd.sublist (List.drop_sublist 50 filenames)
  have hri : resolve_images oracle filenames =
      fillMissing
        (dictUpdate
          (dictUpdate [] ((filenames.take 50).map (fun g => (g, PLACEHOLDER_URL))))
          (resolve_batch (oracle 1) (filenames.drop 50)))
        filenames := by
    unfold resolve_images
    rw [hne, if_neg Bool.false_ne_true]
    dsimp only
    rw [hchunks, hded]
    show fillMissing
        (dictUpdate (dictUpdate [] (resolve_batch (oracle 0) (filenames.take 50)))
          (resolve_batch (oracle 1) (filenames.drop 50)))
        filenames = _
    rw [hexn]
    rfl
  refine ⟨hchunks, ?_, hdroplen, ?_, ?_⟩
  · rw [List.length_take, hlen]
    decide
  · intro f hf
    have hfnotB : f ∉ filenames.drop 50 := by
      have h2 := hnd
      rw [← List.take_append_drop 50 filenames] at h2
      exact (List.nodup_append.mp h2).2.2 hf
    have h1 : dlookup ((filenames.take 50).map (fun g => (g, PLACEHOLDER_URL))) f =
        some PLACEHOLDER_URL := dlookup_map_pair (fun _ => PLACEHOLDER_URL) _ f hf
    have h2 : dlookup (dictUpdate []
        ((filenames.take 50).map (fun g => (g, PLACEHOLDER_URL)))) f =
        some PLACEHOLDER_URL :=
      dlookup_dictUpdate_of_some _ _ _ _ (by rw [map_pair_keys]; exact hndA) h1
    have h3 : dlookup (resolve_batch (oracle 1) (filenames.drop 50)) f = none :=
      dlookup_eq_none_of_not_mem_keys _ f (by rw [resolve_batch_keys]; exact hfnotB)
    have h4 : dlookup (dictUpdate
        (dictUpdate [] ((filenames.take 50).map (fun g => (g, PLACEHOLDER_URL))))
        (resolve_batch (oracle 1) (filenames.drop 50))) f = some PLACEHOLDER_URL := by
      rw [dlookup_dictUpdate_of_none _ _ _ h3]
      exact h2
    rw [hri]
    exact dlookup_fillMissing_of_some _ _ _ _ h4
  · intro f hf
    obtain ⟨v, hv⟩ := dlookup_resolve_batch (oracle 1) (filenames.drop 50) f hf
    have h2 : dlookup (dictUpdate
        (dictUpdate [] ((filenames.take 50).map (fun g => (g, PLACEHOLDER_URL))))
        (resolve_batch (oracle 1) (filenames.drop 50))) f = some v :=
      dlookup_dictUpdate_of_some _ _ _ _ (by rw [resolve_batch_keys]; exact hndB) hv
    rw [hri, dlookup_fillMissing_of_some _ _ _ _ h2, hv]

/-- C3 (witness): coverage evaluated for a single filename whose only
batch call raises. -/
theorem resolve_images_coverage_witness :
    ∃ u, dlookup (resolve_images (fun _ : Nat => BatchOutcome.exn) ["a"]) "a" = some u ∧
      (u = PLACEHOLDER_URL ∨
        ∃ i : Nat, u ∈ outcomeUrls ((fun _ : Nat => BatchOutcome.exn) i)) :=
  resolve_images_coverage (fun _ : Nat => BatchOutcome.exn) ["a"] "a" (by decide)

/-- C9 (witness): the batch boundary evaluated on 55 concrete filenames
with a failing first batch. -/
theorem resolve_images_batch_boundary_witness :
    chunk_list (dedupFirst batch55) BATCH_SIZE = [batch55.take 50, batch55.drop 50] ∧
    (batch55.take 50).length = 50 ∧ (batch55.drop 50).length = 5 ∧
    (∀ f ∈ batch55.take 50,
      dlookup (resolve_images oracleFirstFails batch55) f = some PLACEHOLDER_URL) ∧
    (∀ f ∈ batch55.drop 50,
      dlookup (resolve_images oracleFirstFails batch55) f =
        dlookup (resolve_batch (oracleFirstFails 1) (batch55.drop 50)) f) :=
  resolve_images_batch_boundary batch55 oracleFirstFails (by decide) (by decide) rfl
